import Mathlib

/-!
Verification development for the otkroimosprom backend: a shallow embedding
of the ingestion-and-consolidation pipeline (CSV reader, key-field extractor,
upload coordinator, consolidated-data store, partial-update endpoints) with
theorems settling the frozen claims about it.

Conventions of the embedding:
* Python scalars are modelled by `Value` (null, int, float, text, bool);
  float values are carried as exact rationals, abstracting IEEE rounding.
* Python dicts and dynamic objects are association lists updated in place
  (`dictSet`), matching dict insertion-order semantics.
* The database session is explicit state; `commit` returns the new state and
  `rollback` restores the state from before the request.
* Strings are processed at the character-list level; the modelled string
  domain is plain (quote-free) delimited text, which is the domain every
  claim speaks about.
-/

instance {ε α : Type} [DecidableEq ε] [DecidableEq α] : DecidableEq (Except ε α) := fun a b =>
  match a, b with
  | Except.error e, Except.error f =>
    if h : e = f then Decidable.isTrue (by rw [h])
    else Decidable.isFalse (by intro hc; cases hc; exact h rfl)
  | Except.error _, Except.ok _ => Decidable.isFalse (by intro hc; cases hc)
  | Except.ok _, Except.error _ => Decidable.isFalse (by intro hc; cases hc)
  | Except.ok x, Except.ok y =>
    if h : x = y then Decidable.isTrue (by rw [h])
    else Decidable.isFalse (by intro hc; cases hc; exact h rfl)

/-- Scalar value of a CSV cell / model attribute, as produced by the Python
code. `float` carries the exact decimal value (IEEE rounding abstracted). -/
inductive Value where
  | none : Value
  | int : Int → Value
  | float : Rat → Value
  | str : String → Value
  | bool : Bool → Value
deriving DecidableEq

/-- A parsed CSV record: field name to normalized scalar, in insertion order
(models the Python dict produced by `csv.DictReader` + cleaning). -/
abbrev RawRecord := List (String × Value)

/-- Python dict / object-attribute read: value at the first matching key. -/
def dictGet? {α : Type} : List (String × α) → String → Option α
  | [], _ => Option.none
  | p :: t, k => if p.1 = k then Option.some p.2 else dictGet? t k

/-- Python dict assignment `d[k] = v` / `setattr(o, k, v)`: update the entry
in place if the key is present, otherwise append it (dict insertion order). -/
def dictSet {α : Type} : List (String × α) → String → α → List (String × α)
  | [], k, v => [(k, v)]
  | p :: t, k, v => if p.1 = k then (k, v) :: t else p :: dictSet t k v

/-- Build a dict from a sequence of assignments, starting empty. -/
def dictOf {α : Type} (pairs : List (String × α)) : List (String × α) :=
  pairs.foldl (fun acc p => dictSet acc p.1 p.2) []

/-- Python `hasattr(o, k)` over the association-list object model. -/
def hasattr {α : Type} (o : List (String × α)) (k : String) : Bool :=
  (dictGet? o k).isSome

/-- Python `str.strip()` with no argument: drop leading and trailing
whitespace (modelled by `Char.isWhitespace`). -/
def pyStrip (cs : List Char) : List Char :=
  ((cs.dropWhile Char.isWhitespace).reverse.dropWhile Char.isWhitespace).reverse

/-- `value.replace(",", ".")`: single-character pattern replace. -/
def replaceCommaDot (cs : List Char) : List Char :=
  cs.map (fun c => if c = ',' then '.' else c)

/-- Digit group as accepted inside Python numeric literals: decimal digits
with single underscores between digits. Accumulates (value, digit count). -/
def ugroupGo (val cnt : Nat) : List Char → Option (Nat × Nat)
  | [] => Option.some (val, cnt)
  | c :: rest =>
    if c.isDigit then ugroupGo (10 * val + (c.toNat - 48)) (cnt + 1) rest
    else if c = '_' then
      match rest with
      | [] => Option.none
      | d :: rest2 =>
        if d.isDigit then ugroupGo (10 * val + (d.toNat - 48)) (cnt + 1) rest2
        else Option.none
    else Option.none

/-- Nonempty digit group (underscores allowed between digits): returns its
numeric value and its number of digits. -/
def ugroup? : List Char → Option (Nat × Nat)
  | [] => Option.none
  | c :: rest =>
    if c.isDigit then ugroupGo (c.toNat - 48) 1 rest else Option.none

/-- Python `int(s)` on ASCII decimal text: strip whitespace, optional sign,
then a digit group. Returns `none` where `int` raises `ValueError`. -/
def pyIntParseL (cs : List Char) : Option Int :=
  match pyStrip cs with
  | [] => Option.none
  | c :: rest =>
    if c = '+' then (ugroup? rest).map (fun p => (p.1 : Int))
    else if c = '-' then (ugroup? rest).map (fun p => -(p.1 : Int))
    else (ugroup? (c :: rest)).map (fun p => (p.1 : Int))

/-- Python `int(s)` at the string level. -/
def pyIntParse (s : String) : Option Int := pyIntParseL s.toList

/-- Split a character list at the first character satisfying `p`; the second
component is `none` when no such character occurs. -/
def breakAtFirst (p : Char → Bool) : List Char → List Char × Option (List Char)
  | [] => ([], Option.none)
  | c :: rest =>
    if p c then ([], Option.some rest)
    else
      let r := breakAtFirst p rest
      (c :: r.1, r.2)

/-- Apply a base-10 exponent to a rational mantissa. -/
def ratApplyExp (m : Rat) (e : Int) : Rat :=
  if 0 ≤ e then m * (10 : Rat) ^ e.toNat else m / (10 : Rat) ^ (-e).toNat

/-- Python `float(s)` on finite decimal text: strip, optional sign, digit
groups around an optional point, optional exponent. The result is the exact
decimal value; IEEE rounding/overflow and the named specials (`inf`, `nan`,
unreachable behind the decimal-point guard of the cleaner) are abstracted. -/
def pyFloatParseL (cs : List Char) : Option Rat :=
  let t := pyStrip cs
  let su : Int × List Char :=
    match t with
    | '+' :: r => (1, r)
    | '-' :: r => (-1, r)
    | r => (1, r)
  let me := breakAtFirst (fun c => c == 'e' || c == 'E') su.2
  let expVal : Option Int :=
    match me.2 with
    | Option.none => Option.some 0
    | Option.some es =>
      match es with
      | '+' :: r => (ugroup? r).map (fun p => (p.1 : Int))
      | '-' :: r => (ugroup? r).map (fun p => -(p.1 : Int))
      | r => (ugroup? r).map (fun p => (p.1 : Int))
  let mantVal : Option Rat :=
    match breakAtFirst (fun c => c == '.') me.1 with
    | (ip, Option.none) => (ugroup? ip).map (fun p => (p.1 : Rat))
    | (ip, Option.some fp) =>
      if ip.isEmpty && fp.isEmpty then Option.none
      else
        match (if ip.isEmpty then Option.some (0, 0) else ugroup? ip),
              (if fp.isEmpty then Option.some (0, 0) else ugroup? fp) with
        | Option.some ipv, Option.some fpv =>
          Option.some ((ipv.1 : Rat) + (fpv.1 : Rat) / (10 : Rat) ^ fpv.2)
        | _, _ => Option.none
  match mantVal, expVal with
  | Option.some m, Option.some e => Option.some (ratApplyExp ((su.1 : Rat) * m) e)
  | _, _ => Option.none

/-- Python `float(s)` at the string level. -/
def pyFloatParse (s : String) : Option Rat := pyFloatParseL s.toList

namespace AsyncCSVReader

/-- `AsyncCSVReader._clean_value`: empty/whitespace-only (or missing) cell
becomes null; otherwise commas are replaced by points and the cell stripped;
a cell containing a point is coerced with `float`, otherwise with `int`;
on coercion failure the cleaned text itself is kept. -/
def clean_value : Option String → Value
  | Option.none => Value.none
  | Option.some s =>
    let cs := s.toList
    if cs.isEmpty || (pyStrip cs).isEmpty then Value.none
    else
      let cleaned := pyStrip (replaceCommaDot cs)
      if '.' ∈ cleaned then
        match pyFloatParseL cleaned with
        | Option.some q => Value.float q
        | Option.none => Value.str (String.mk cleaned)
      else
        match pyIntParseL cleaned with
        | Option.some n => Value.int n
        | Option.none => Value.str (String.mk cleaned)

end AsyncCSVReader

/-- Split a character list on a delimiter character (plain, quote-free csv
field splitting). -/
def splitChar (d : Char) : List Char → List (List Char)
  | [] => [[]]
  | c :: rest =>
    let r := splitChar d rest
    if c = d then [] :: r
    else
      match r with
      | h :: t => (c :: h) :: t
      | [] => [[c]]

/-- One line as seen by `csv.reader`: a blank line yields the empty row,
any other line is split on the delimiter. -/
def csvLine (d : Char) (line : String) : List String :=
  if line = "" then [] else (splitChar d line.toList).map String.mk

/-- `csv.DictReader` row construction: `dict(zip(fieldnames, row))` followed
by `d[key] = None` for each trailing header field without a cell. -/
def dictReadRow (fns : List String) (row : List String) : List (String × Option String) :=
  dictOf (fns.zip (row.map Option.some) ++ (fns.drop row.length).map (fun f => (f, Option.none)))

namespace AsyncCSVReader

/-- One iteration of the `read_companies` loop: clean every cell of the
DictReader row, then assign the 1-based record index under `"number"`. -/
def cleanRow (fns : List String) (row : List String) (n : Nat) : RawRecord :=
  dictSet ((dictReadRow fns row).map (fun p => (p.1, clean_value p.2))) "number" (Value.int n)

/-- The enumerated record loop of `read_companies`, numbering from `n`. -/
def numberRows (fns : List String) : Nat → List (List String) → List RawRecord
  | _, [] => []
  | n, r :: rs => cleanRow fns r n :: numberRows fns (n + 1) rs

/-- `AsyncCSVReader.read_companies` on the payload's lines: the first line is
the header, blank lines are skipped, each data row becomes a cleaned record
numbered from 1. A data row with more cells than the header makes the Python
code raise (`_clean_value` on the restkey list), modelled as an error. -/
def read_companies (delim : Char) (lines : List String) : Except String (List RawRecord) :=
  match lines with
  | [] => Except.ok []
  | hd :: rest =>
    let fns := csvLine delim hd
    let rows := (rest.map (csvLine delim)).filter (fun r => !r.isEmpty)
    if rows.any (fun r => fns.length < r.length) then
      Except.error "AttributeError: 'list' object has no attribute 'replace'"
    else Except.ok (numberRows fns 1 rows)

end AsyncCSVReader

/-- Python truthiness of a scalar: `None`, `0`, `0.0`, `""` and `False`
are falsy, everything else truthy. -/
def pyTruthy : Value → Bool
  | Value.none => false
  | Value.int n => n != 0
  | Value.float q => q != 0
  | Value.str s => s != ""
  | Value.bool b => b

/-- Python `a or b` on scalars: `a` if truthy, else `b`. -/
def pyOr (a b : Value) : Value := if pyTruthy a then a else b

/-- Python `v == lit` for a string literal: values of other runtime types
(including `None`) compare unequal. -/
def pyEqStr (v : Value) (lit : String) : Bool :=
  match v with
  | Value.str s => s == lit
  | _ => false

/-- Truncation of a rational toward zero, as Python `int(float)` does. -/
def ratTruncToZero (q : Rat) : Int := if 0 ≤ q then q.floor else -((-q).floor)

/-- Python `int(v)` applied to a scalar; `none` models `ValueError` /
`TypeError` (caught by the route's blanket handler). -/
def intOfValue : Value → Option Int
  | Value.int n => Option.some n
  | Value.float q => Option.some (ratTruncToZero q)
  | Value.str s => pyIntParse s
  | Value.bool b => Option.some (if b then 1 else 0)
  | Value.none => Option.none

/-- The fixed key-field projection of a parsed record
(`AsyncCSVReader._extract_key_fields`). -/
structure KeyFields where
  inn : Value
  name : Value
  full_name : Value
  spark_status : Value
  main_industry : Value
  company_size_final : Value
  organization_type : Value
  support_measures : Value
  special_status : Value
deriving DecidableEq

/-- Python `row.get(k)` on a parsed record: `None` when the key is absent. -/
def rowGet (row : RawRecord) (k : String) : Value :=
  (dictGet? row k).getD Value.none

namespace AsyncCSVReader

/-- `AsyncCSVReader._extract_key_fields`: project a parsed record onto the
fixed key-field set by source header name. -/
def extract_key_fields (row : RawRecord) : KeyFields :=
  { inn := rowGet row "ИНН"
    name := rowGet row "Наименование организации"
    full_name := rowGet row "Полное наименование организации"
    spark_status := rowGet row "Статус СПАРК"
    main_industry := rowGet row "Основная отрасль"
    company_size_final := rowGet row "Размер предприятия (итог)"
    organization_type := rowGet row "Тип организации"
    support_measures := rowGet row "Данные о мерах поддержки"
    special_status := rowGet row "Наличие особого статуса" }

end AsyncCSVReader

/-- The persistent Company row, with the attributes the upload route
constructs (`files.upload_csv_file`). Text attributes hold the cleaned cell
value as the dynamically typed code stores it. -/
structure Company where
  id : Nat
  inn : Int
  name : Value
  full_name : Value
  spark_status : Value
  main_industry : Value
  company_size_final : Value
  organization_type : Value
  support_measures : Bool
  special_status : Value
  json_data : RawRecord
deriving DecidableEq

/-- The user-to-company ownership link row (`UserCompanyLink`). -/
structure UserCompanyLink where
  user_id : Nat
  company_id : Nat
deriving DecidableEq

/-- The relational state the upload route touches: company rows, ownership
links, and the autoincrement counter. -/
structure DB where
  companies : List Company
  links : List UserCompanyLink
  nextId : Nat
deriving DecidableEq

/-- An empty database. -/
def emptyDB : DB := { companies := [], links := [], nextId := 1 }

/-- The per-company echo entry of the upload summary (`id`, `name`, `inn`). -/
structure SavedCompany where
  id : Nat
  name : Value
  inn : Int
deriving DecidableEq

/-- The upload route's success payload: count of processed companies and the
first five saved entries. -/
structure UploadSummary where
  companies_processed : Nat
  companies_saved : List SavedCompany
deriving DecidableEq

namespace files

/-- The `Company(...)` construction of `upload_csv_file` from one row's key
fields and full record: `int(inn) if inn else 0`, `or ""` defaults for the
text fields, and exact sentinel match for the support-measures flag. The
`ValueError` of `int` on a non-numeric identifier is an error result. -/
def makeCompany (kf : KeyFields) (cd : RawRecord) : Except String Company :=
  match (if pyTruthy kf.inn then intOfValue kf.inn else Option.some 0) with
  | Option.none => Except.error "invalid literal for int()"
  | Option.some inn =>
    Except.ok
      { id := 0
        inn := inn
        name := pyOr kf.name (Value.str "")
        full_name := pyOr kf.full_name (Value.str "")
        spark_status := pyOr kf.spark_status (Value.str "")
        main_industry := pyOr kf.main_industry (Value.str "")
        company_size_final := pyOr kf.company_size_final (Value.str "")
        organization_type := kf.organization_type
        support_measures := pyEqStr kf.support_measures "Получены"
        special_status := kf.special_status
        json_data := cd }

/-- The row loop of `upload_csv_file`: per row, build the Company, flush it
(assigning the id; `flushFails` models a storage write failure such as a
uniqueness violation), add the ownership link, and collect the echo entry.
The first exception aborts the loop. -/
def saveLoop (flushFails : DB → Company → Bool) (uid : Nat) :
    DB → List SavedCompany → List (RawRecord × KeyFields) →
      Except String (DB × List SavedCompany)
  | db, saved, [] => Except.ok (db, saved)
  | db, saved, (cd, kf) :: rest =>
    match makeCompany kf cd with
    | Except.error e => Except.error ("Database error: " ++ e)
    | Except.ok c0 =>
      let c := { c0 with id := db.nextId }
      if flushFails db c then Except.error "Database error: flush failed"
      else
        saveLoop flushFails uid
          { companies := db.companies ++ [c]
            links := db.links ++ [{ user_id := uid, company_id := c.id }]
            nextId := db.nextId + 1 }
          (saved ++ [{ id := c.id, name := c.name, inn := c.inn }]) rest

/-- `files.upload_csv_file` after the size-capped write: parse the stored
payload with the comma-delimited reader, extract key fields, run the row
loop inside one session, commit on success and roll the whole session back
on any exception (returning the HTTP 500 as an error, no summary). -/
def upload_csv_file (flushFails : DB → Company → Bool) (uid : Nat) (db0 : DB)
    (lines : List String) : DB × Except String UploadSummary :=
  match AsyncCSVReader.read_companies ',' lines with
  | Except.error e => (db0, Except.error ("CSV processing error: " ++ e))
  | Except.ok companies_data =>
    let key_fields := companies_data.map AsyncCSVReader.extract_key_fields
    match saveLoop flushFails uid db0 [] (companies_data.zip key_fields) with
    | Except.error e => (db0, Except.error e)
    | Except.ok (db1, saved) =>
      (db1, Except.ok { companies_processed := saved.length, companies_saved := saved.take 5 })

/-- `files.get_user_companies` (list-by-owner): companies joined to the
user's ownership links, with offset applied before limit as in SQL. -/
def get_user_companies (db : DB) (uid limit offset : Nat) : List Company :=
  (((db.companies.filter (fun c =>
      db.links.any (fun l => l.user_id == uid && l.company_id == c.id))).drop offset).take limit)

end files

/-- The consolidated (tax identifier, year) record (`ConsolidatedData`), with
the financial/tax/operational fields of the model; dates are abstracted to
numbers. Optional fields default to null as in the model. -/
structure ConsolidatedData where
  id : Option Nat := Option.none
  inn : String
  name : String
  organization_type : Option String := Option.none
  main_industry : Option String := Option.none
  sub_industry : Option String := Option.none
  district : Option String := Option.none
  region : Option String := Option.none
  coordinates : Option String := Option.none
  year : Int
  revenue_thous_rub : Option Rat := Option.none
  net_profit_thous_rub : Option Rat := Option.none
  taxes_to_moscow_thous_rub : Option Rat := Option.none
  profit_tax_thous_rub : Option Rat := Option.none
  property_tax_thous_rub : Option Rat := Option.none
  land_tax_thous_rub : Option Rat := Option.none
  personal_income_tax_thous_rub : Option Rat := Option.none
  transport_tax_thous_rub : Option Rat := Option.none
  other_taxes_thous_rub : Option Rat := Option.none
  excise_taxes_thous_rub : Option Rat := Option.none
  investments_in_moscow_thous_rub : Option Rat := Option.none
  avg_personnel_moscow : Option Int := Option.none
  payroll_moscow_thous_rub : Option Rat := Option.none
  avg_salary_moscow_thous_rub : Option Rat := Option.none
  export_volume_thous_rub : Option Rat := Option.none
  prev_year_export_volume_mln_rub : Option Rat := Option.none
  capacity_utilization_percent : Option Int := Option.none
  has_exports : Option Bool := Option.none
  support_measures : Option String := Option.none
  special_status : Option String := Option.none
  is_confirmed : Bool := false
  last_modified_date : Option Int := Option.none
  confirmer_type : Option String := Option.none
  confirmer_identifier : Option String := Option.none

namespace CompanyRepository

/-- `CompanyRepository.get_by_inn_and_year`: first stored record whose
tax identifier and year both match (the repository mirrored by the data
router's `DataRepository`). -/
def get_by_inn_and_year (store : List ConsolidatedData) (inn : String) (year : Int) :
    Option ConsolidatedData :=
  store.find? (fun r => r.inn == inn && r.year == year)

/-- `CompanyRepository.create`: add the record to the session and commit. -/
def create (store : List ConsolidatedData) (data : ConsolidatedData) :
    List ConsolidatedData :=
  store ++ [data]

/-- `CompanyRepository.update`: `model_dump(exclude_unset=True)` followed by
`setattr` per present field. `update_data` is the dump — exactly the fields
explicitly present in the partial input (an explicit null appears as a null
value, an absent field does not appear at all). -/
def update (db_obj : List (String × Value)) (update_data : List (String × Value)) :
    List (String × Value) :=
  update_data.foldl (fun acc kv => dictSet acc kv.1 kv.2) db_obj

end CompanyRepository

namespace data_router

/-- `data_router.create_data`: reject with 409 when a record for the
(tax identifier, year) pair already exists, else create it. Returns the
resulting store alongside the HTTP outcome. -/
def create_data (store : List ConsolidatedData) (data_in : ConsolidatedData) :
    List ConsolidatedData × Except String ConsolidatedData :=
  match CompanyRepository.get_by_inn_and_year store data_in.inn data_in.year with
  | Option.some _ => (store, Except.error "409 Data for this INN and year already exists")
  | Option.none => (CompanyRepository.create store data_in, Except.ok data_in)

end data_router

/-- Presence state of one field of a partial-update request body: absent,
explicitly null, or set to a value. -/
inductive Patch (α : Type) where
  | unset : Patch α
  | null : Patch α
  | val : α → Patch α
deriving DecidableEq

/-- One field's contribution to `model_dump(exclude_unset=True)`. -/
def dumpField {α : Type} (toVal : α → Value) (k : String) : Patch α → List (String × Value)
  | Patch.unset => []
  | Patch.null => [(k, Value.none)]
  | Patch.val a => [(k, toVal a)]

/-- `companies.CompanyUpdateRequest`: the updatable main fields, each
optional in the request body. -/
structure CompanyUpdateRequest where
  name : Patch String := Patch.unset
  full_name : Patch String := Patch.unset
  spark_status : Patch String := Patch.unset
  main_industry : Patch String := Patch.unset
  company_size_final : Patch String := Patch.unset
  organization_type : Patch String := Patch.unset
  support_measures : Patch Bool := Patch.unset
  special_status : Patch String := Patch.unset
deriving DecidableEq

/-- `model_dump(exclude_unset=True)` of `CompanyUpdateRequest`, in field
declaration order. -/
def CompanyUpdateRequest.model_dump (r : CompanyUpdateRequest) : List (String × Value) :=
  dumpField Value.str "name" r.name ++
  dumpField Value.str "full_name" r.full_name ++
  dumpField Value.str "spark_status" r.spark_status ++
  dumpField Value.str "main_industry" r.main_industry ++
  dumpField Value.str "company_size_final" r.company_size_final ++
  dumpField Value.str "organization_type" r.organization_type ++
  dumpField Value.bool "support_measures" r.support_measures ++
  dumpField Value.str "special_status" r.special_status

/-- `companies.CompanyKeyMetricsUpdate`: the updatable key metrics. -/
structure CompanyKeyMetricsUpdate where
  main_industry : Patch String := Patch.unset
  company_size_final : Patch String := Patch.unset
  organization_type : Patch String := Patch.unset
  support_measures : Patch Bool := Patch.unset
  special_status : Patch String := Patch.unset
deriving DecidableEq

/-- `model_dump(exclude_unset=True)` of `CompanyKeyMetricsUpdate`. -/
def CompanyKeyMetricsUpdate.model_dump (r : CompanyKeyMetricsUpdate) : List (String × Value) :=
  dumpField Value.str "main_industry" r.main_industry ++
  dumpField Value.str "company_size_final" r.company_size_final ++
  dumpField Value.str "organization_type" r.organization_type ++
  dumpField Value.bool "support_measures" r.support_measures ++
  dumpField Value.str "special_status" r.special_status

namespace companies

/-- `companies.update_company`: for each field of the dump, write it only if
the company has the attribute and the value is not `None`; then stamp
`updated_at`. The company row is its dynamic attribute map. -/
def update_company (company : List (String × Value)) (update_data : CompanyUpdateRequest)
    (now : Int) : List (String × Value) :=
  let patched :=
    update_data.model_dump.foldl
      (fun acc kv =>
        if hasattr acc kv.1 && !(kv.2 == Value.none) then dictSet acc kv.1 kv.2 else acc)
      company
  dictSet patched "updated_at" (Value.int now)

/-- `companies.update_company_key_metrics`: same per-field guard over the
key-metrics dump, then the `updated_at` stamp. -/
def update_company_key_metrics (company : List (String × Value))
    (metrics_data : CompanyKeyMetricsUpdate) (now : Int) : List (String × Value) :=
  let patched :=
    metrics_data.model_dump.foldl
      (fun acc kv =>
        if hasattr acc kv.1 && !(kv.2 == Value.none) then dictSet acc kv.1 kv.2 else acc)
      company
  dictSet patched "updated_at" (Value.int now)

end companies

/-- A pandas dataframe as far as the optimizer's loader is concerned:
column labels and raw string rows. -/
structure DataFrame where
  cols : List String
  rows : List (List String)
deriving DecidableEq

/-- `pd.read_csv(path, delimiter=d)` on plain delimited text: blank lines
are skipped, the first remaining line is the header, the rest are rows;
an empty payload is a read error (`none`). -/
def pd_read_csv (d : Char) (lines : List String) : Option DataFrame :=
  match lines.filter (fun l => l != "") with
  | [] => Option.none
  | hd :: rest => Option.some { cols := csvLine d hd, rows := rest.map (csvLine d) }

namespace Optimizer

/-- `Optimizer._ensure_dataframe` on a path argument: read comma-delimited;
if that yields exactly one column, re-read once with the semicolon
delimiter; finally strip the column labels. -/
def ensure_dataframe (lines : List String) : Option DataFrame :=
  match pd_read_csv ',' lines with
  | Option.none => Option.none
  | Option.some df0 =>
    match (if df0.cols.length = 1 then pd_read_csv ';' lines else Option.some df0) with
    | Option.none => Option.none
    | Option.some df =>
      Option.some { cols := df.cols.map (fun s => String.mk (pyStrip s.toList)), rows := df.rows }

end Optimizer

/-- Storage-failure model for the batch example: the flush of the company
with tax identifier 2 fails (e.g. a uniqueness violation). -/
def c1FlushFails : DB → Company → Bool := fun _ c => c.inn == 2

/-- A two-row batch payload whose second row's storage write fails under
`c1FlushFails`. -/
def c1Lines : List String := ["ИНН,Наименование организации", "1,A", "2,B"]

/-- A parsed record whose support-measures cell is exactly the sentinel. -/
def c6row : RawRecord := [("Данные о мерах поддержки", Value.str "Получены")]

/-- The company the upload route builds from `c6row`. -/
def c6comp : Company :=
  { id := 0
    inn := 0
    name := Value.str ""
    full_name := Value.str ""
    spark_status := Value.str ""
    main_industry := Value.str ""
    company_size_final := Value.str ""
    organization_type := Value.none
    support_measures := true
    special_status := Value.none
    json_data := c6row }

/-- A stored consolidated record for (7701234567, 2023). -/
def c2rec : ConsolidatedData := { inn := "7701234567", name := "ACME", year := 2023 }

/-- A create request for the same (tax identifier, year) pair as `c2rec`. -/
def c2dup : ConsolidatedData := { inn := "7701234567", name := "ACME v2", year := 2023 }

/-- Key fields of a row whose every source column is missing. -/
def c9kf : KeyFields :=
  { inn := Value.none
    name := Value.none
    full_name := Value.none
    spark_status := Value.none
    main_industry := Value.none
    company_size_final := Value.none
    organization_type := Value.none
    support_measures := Value.none
    special_status := Value.none }

/-- A stored company attribute map with a name, a flag and a timestamp. -/
def c10company : List (String × Value) :=
  [("name", Value.str "Acme"), ("support_measures", Value.bool false),
    ("updated_at", Value.int 0)]

/-- An update request whose only present field is an explicit null name. -/
def c10req : CompanyUpdateRequest := { name := Patch.null }

/-- A key-metrics request whose only present field is an explicit null flag. -/
def c10km : CompanyKeyMetricsUpdate := { support_measures := Patch.null }

lemma dictGet?_dictSet_self {α : Type} (o : List (String × α)) (k : String) (v : α) :
    dictGet? (dictSet o k v) k = Option.some v := by
  induction o with
  | nil => simp [dictSet, dictGet?]
  | cons p t ih =>
    by_cases h : p.1 = k
    · simp [dictSet, dictGet?, h]
    · simp [dictSet, dictGet?, h, ih]

lemma dictGet?_dictSet_ne {α : Type} (o : List (String × α)) {k k' : String} (v : α)
    (h : k' ≠ k) : dictGet? (dictSet o k' v) k = dictGet? o k := by
  induction o with
  | nil => simp [dictSet, dictGet?, h]
  | cons p t ih =>
    by_cases hp : p.1 = k'
    · simp [dictSet, dictGet?, hp, h]
    · simp only [dictSet, hp, if_false, dictGet?]
      by_cases hk : p.1 = k
      · simp [hk]
      · simp [hk, ih]

lemma dictSet_of_get_none {α : Type} (o : List (String × α)) {k : String} (v : α)
    (h : dictGet? o k = Option.none) : dictSet o k v = o ++ [(k, v)] := by
  induction o with
  | nil => simp [dictSet]
  | cons p t ih =>
    by_cases hp : p.1 = k
    · simp [dictGet?, hp] at h
    · simp only [dictGet?, hp, if_false] at h
      simp [dictSet, hp, ih h]

lemma dictGet?_eq_none_of_not_mem_keys {α : Type} (o : List (String × α)) {k : String}
    (h : k ∉ o.map Prod.fst) : dictGet? o k = Option.none := by
  induction o with
  | nil => rfl
  | cons p t ih =>
    simp only [List.map_cons, List.mem_cons] at h
    push_neg at h
    simp only [dictGet?]
    rw [if_neg (fun hc => h.1 hc.symm)]
    exact ih h.2

lemma dictGet?_append_left {α : Type} (a b : List (String × α)) {k : String} {v : α}
    (h : dictGet? a k = Option.some v) : dictGet? (a ++ b) k = Option.some v := by
  induction a with
  | nil => simp [dictGet?] at h
  | cons p t ih =>
    by_cases hp : p.1 = k
    · simp [dictGet?, hp] at h ⊢; exact h
    · simp only [dictGet?, hp, if_false] at h
      simp only [List.cons_append, dictGet?, hp, if_false]
      exact ih h

lemma dictGet?_append_right {α : Type} (a b : List (String × α)) {k : String}
    (h : dictGet? a k = Option.none) : dictGet? (a ++ b) k = dictGet? b k := by
  induction a with
  | nil => simp
  | cons p t ih =>
    by_cases hp : p.1 = k
    · simp [dictGet?, hp] at h
    · simp only [dictGet?, hp, if_false] at h
      simp only [List.cons_append, dictGet?, hp, if_false]
      exact ih h

lemma dictGet?_const {α : Type} (o : List (String × α)) {k : String} (v : α)
    (hv : ∀ p ∈ o, p.2 = v) (hk : k ∈ o.map Prod.fst) : dictGet? o k = Option.some v := by
  induction o with
  | nil => simp at hk
  | cons p t ih =>
    by_cases hp : p.1 = k
    · simp only [dictGet?, hp, if_true]
      rw [hv p (List.mem_cons_self _ _)]
    · simp only [List.map_cons, List.mem_cons] at hk
      rcases hk with hk | hk
    
      · exact absurd hk.symm hp
      · simp only [dictGet?, hp, if_false]
        exact ih (fun q hq => hv q (List.mem_cons_of_mem _ hq)) hk

lemma foldl_dictSet_append {α : Type} (pairs acc : List (String × α))
    (hnd : (pairs.map Prod.fst).Nodup)
    (hdisj : ∀ p ∈ pairs, dictGet? acc p.1 = Option.none) :
    pairs.foldl (fun acc p => dictSet acc p.1 p.2) acc = acc ++ pairs := by
  induction pairs generalizing acc with
  | nil => simp
  | cons p t ih =>
    simp only [List.foldl_cons]
    rw [dictSet_of_get_none acc p.2 (hdisj p (List.mem_cons_self _ _))]
    simp only [List.map_cons, List.nodup_cons] at hnd
    rw [ih (acc ++ [(p.1, p.2)]) hnd.2]
    · simp
    · intro q hq
      have hqa : dictGet? acc q.1 = Option.none := hdisj q (List.mem_cons_of_mem _ hq)
      rw [dictGet?_append_right _ _ hqa]
      have : q.1 ≠ p.1 := by
        intro hc
        exact hnd.1 (hc ▸ List.mem_map_of_mem Prod.fst hq)
      simp only [dictGet?]
      rw [if_neg (fun hc => this hc.symm)]

lemma dictOf_of_nodup {α : Type} (pairs : List (String × α))
    (hnd : (pairs.map Prod.fst).Nodup) : dictOf pairs = pairs := by
  have := foldl_dictSet_append pairs [] hnd (fun p _ => rfl)
  simpa [dictOf] using this

lemma map_fst_zip_take {α β : Type} (l₁ : List α) (l₂ : List β) :
    (l₁.zip l₂).map Prod.fst = l₁.take l₂.length := by
  induction l₁ generalizing l₂ with
  | nil => simp
  | cons a t ih =>
    cases l₂ with
    | nil => simp
    | cons b t₂ => simp [ih]

lemma zip_map_snd_pair {α β γ : Type} (l₁ : List α) (l₂ : List β) (g : β → γ) :
    (l₁.zip l₂).map (fun p => (p.1, g p.2)) = l₁.zip (l₂.map g) := by
  induction l₁ generalizing l₂ with
  | nil => simp
  | cons a t ih =>
    cases l₂ with
    | nil => simp
    | cons b t₂ => simp [ih]

lemma map_fst_pairs {α β : Type} (l : List α) (v : β) :
    ((l.map (fun f => (f, v))).map Prod.fst) = l := by
  induction l with
  | nil => rfl
  | cons a t ih => simp [ih]

lemma cleanRow_shape (fns row : List String) (n : Nat)
    (hnd : fns.Nodup) (hnum : "number" ∉ fns) :
    AsyncCSVReader.cleanRow fns row n =
      (fns.zip (row.map (fun c => AsyncCSVReader.clean_value (Option.some c))) ++
        (fns.drop row.length).map (fun f => (f, Value.none))) ++
        [("number", Value.int n)] := by
  have hkeys :
      ((fns.zip (row.map Option.some) ++
          (fns.drop row.length).map (fun f => (f, (Option.none : Option String)))).map
        Prod.fst) = fns := by
    rw [List.map_append, map_fst_zip_take, map_fst_pairs, List.length_map,
      List.take_append_drop]
  have hread : dictReadRow fns row =
      fns.zip (row.map Option.some) ++
        (fns.drop row.length).map (fun f => (f, Option.none)) := by
    unfold dictReadRow
    apply dictOf_of_nodup
    rw [hkeys]
    exact hnd
  unfold AsyncCSVReader.cleanRow
  rw [hread]
  have hclean :
      ((fns.zip (row.map Option.some) ++
          (fns.drop row.length).map (fun f => (f, Option.none))).map
        (fun p : String × Option String => (p.1, AsyncCSVReader.clean_value p.2))) =
      fns.zip (row.map (fun c => AsyncCSVReader.clean_value (Option.some c))) ++
        (fns.drop row.length).map (fun f => (f, Value.none)) := by
    rw [List.map_append, zip_map_snd_pair, List.map_map, List.map_map]
    rfl
  rw [hclean]
  apply dictSet_of_get_none
  apply dictGet?_eq_none_of_not_mem_keys
  rw [List.map_append, map_fst_zip_take, map_fst_pairs]
  intro hc
  rcases List.mem_append.mp hc with hc | hc
  · exact hnum (List.mem_of_mem_take hc)
  · exact hnum (List.mem_of_mem_drop hc)

lemma numberRows_length (fns : List String) (n : Nat) (rows : List (List String)) :
    (AsyncCSVReader.numberRows fns n rows).length = rows.length := by
  induction rows generalizing n with
  | nil => rfl
  | cons r rs ih => simp [AsyncCSVReader.numberRows, ih]

lemma numberRows_get? (fns : List String) (n : Nat) (rows : List (List String))
    (i : Nat) (r : List String) (hr : rows.get? i = Option.some r) :
    (AsyncCSVReader.numberRows fns n rows).get? i =
      Option.some (AsyncCSVReader.cleanRow fns r (n + i)) := by
  induction rows generalizing n i with
  | nil => simp at hr
  | cons a rs ih =>
    cases i with
    | zero =>
      simp only [List.get?] at hr
      cases hr
      simp [AsyncCSVReader.numberRows]
    | succ j =>
      simp only [List.get?] at hr
      have := ih (n + 1) j hr
      simp only [AsyncCSVReader.numberRows, List.get?]
      rw [this]
      have harith : n + 1 + j = n + (j + 1) := by omega
      rw [harith]

lemma csvLine_ne_nil (d : Char) (line : String) (h : line ≠ "") : csvLine d line ≠ [] := by
  unfold csvLine
  rw [if_neg h]
  have : splitChar d line.toList ≠ [] := by
    cases hls : line.toList with
    | nil => simp [splitChar]
    | cons c rest =>
      simp only [splitChar]
      by_cases hc : c = d
      · simp [hc]
      · rw [if_neg hc]
        cases hsp : splitChar d rest with
        | nil => simp
        | cons a as => simp
  intro hc
  exact this (List.map_eq_nil_iff.mp hc)

lemma splitChar_ne_nil (d : Char) (cs : List Char) : splitChar d cs ≠ [] := by
  cases cs with
  | nil => simp [splitChar]
  | cons c rest =>
    simp only [splitChar]
    by_cases hc : c = d
    · simp [hc]
    · rw [if_neg hc]
      cases hsp : splitChar d rest with
      | nil => simp
      | cons a as => simp

lemma splitChar_no_delim (d : Char) (cs : List Char) (h : d ∉ cs) :
    splitChar d cs = [cs] := by
  induction cs with
  | nil => rfl
  | cons c rest ih =>
    simp only [List.mem_cons] at h
    push_neg at h
    simp only [splitChar]
    rw [if_neg (fun hc => h.1 hc.symm), ih h.2]

lemma csvLine_no_delim (d : Char) (line : String) (hne : line ≠ "")
    (h : d ∉ line.toList) : csvLine d line = [line] := by
  unfold csvLine
  rw [if_neg hne, splitChar_no_delim d _ h]
  simp

lemma foldl_dictSet_frame (upd : List (String × Value)) (o : List (String × Value))
    (k : String) (h : ∀ v, (k, v) ∉ upd) :
    dictGet? (upd.foldl (fun acc kv => dictSet acc kv.1 kv.2) o) k = dictGet? o k := by
  induction upd generalizing o with
  | nil => rfl
  | cons kv t ih =>
    simp only [List.foldl_cons]
    have hk : kv.1 ≠ k := by
      intro hc
      exact h kv.2 (by simp only [List.mem_cons]; left; rw [← hc])
    rw [ih (dictSet o kv.1 kv.2) (fun v hv => h v (List.mem_cons_of_mem _ hv)),
      dictGet?_dictSet_ne o kv.2 hk]

lemma foldl_dictSet_mem (upd : List (String × Value)) (o : List (String × Value))
    (k : String) (v : Value) (hnd : (upd.map Prod.fst).Nodup) (hmem : (k, v) ∈ upd) :
    dictGet? (upd.foldl (fun acc kv => dictSet acc kv.1 kv.2) o) k = Option.some v := by
  induction upd generalizing o with
  | nil => simp at hmem
  | cons kv t ih =>
    simp only [List.map_cons, List.nodup_cons] at hnd
    simp only [List.foldl_cons]
    rcases List.mem_cons.mp hmem with hkv | hkv
    · subst hkv
      have hnotk : ∀ w, (k, w) ∉ t := by
        intro w hw
        have h1 : k ∈ t.map Prod.fst := by
          simpa using List.mem_map_of_mem Prod.fst hw
        exact absurd h1 hnd.1
      rw [foldl_dictSet_frame t _ k hnotk]
      exact dictGet?_dictSet_self o k v
    · exact ih _ hnd.2 hkv

lemma patch_foldl_frame (upd : List (String × Value)) (o : List (String × Value))
    (k : String) (h : ∀ v, (k, v) ∈ upd → v = Value.none) :
    dictGet?
      (upd.foldl
        (fun acc kv =>
          if hasattr acc kv.1 && !(kv.2 == Value.none) then dictSet acc kv.1 kv.2 else acc)
        o) k = dictGet? o k := by
  induction upd generalizing o with
  | nil => rfl
  | cons kv t ih =>
    simp only [List.foldl_cons]
    have htail : ∀ v, (k, v) ∈ t → v = Value.none :=
      fun v hv => h v (List.mem_cons_of_mem _ hv)
    by_cases hk : kv.1 = k
    · have : kv.2 = Value.none := h kv.2 (by rw [← hk]; exact List.mem_cons_self _ _)
      rw [this, if_neg]
      · exact ih o htail
      · simp
    · by_cases hg : hasattr o kv.1 && !(kv.2 == Value.none)
      · rw [if_pos hg, ih _ htail, dictGet?_dictSet_ne o kv.2 hk]
      · rw [if_neg hg]
        exact ih o htail

lemma patch_foldl_no_null (upd : List (String × Value)) (o : List (String × Value))
    (k : String) (h : dictGet? o k ≠ Option.some Value.none) :
    dictGet?
      (upd.foldl
        (fun acc kv =>
          if hasattr acc kv.1 && !(kv.2 == Value.none) then dictSet acc kv.1 kv.2 else acc)
        o) k ≠ Option.some Value.none := by
  induction upd generalizing o with
  | nil => exact h
  | cons kv t ih =>
    simp only [List.foldl_cons]
    by_cases hg : hasattr o kv.1 && !(kv.2 == Value.none)
    · rw [if_pos hg]
      apply ih
      by_cases hk : kv.1 = k
      · rw [← hk, dictGet?_dictSet_self]
        intro hc
        have : kv.2 = Value.none := by injection hc
        simp [this] at hg
      · rw [dictGet?_dictSet_ne o kv.2 hk]
        exact h
    · rw [if_neg hg]
      exact ih o h

lemma saveLoop_ok_shape (f : DB → Company → Bool) (uid : Nat) :
    ∀ (pairs : List (RawRecord × KeyFields)) (db : DB) (acc : List SavedCompany)
      (db' : DB) (sv : List SavedCompany),
      files.saveLoop f uid db acc pairs = Except.ok (db', sv) →
      ∃ cs, db'.companies = db.companies ++ cs ∧ sv.length = acc.length + cs.length := by
  intro pairs
  induction pairs with
  | nil =>
    intro db acc db' sv h
    simp only [files.saveLoop, Except.ok.injEq, Prod.mk.injEq] at h
    refine ⟨[], ?_, ?_⟩
    · rw [← h.1]; simp
    · rw [← h.2]; simp
  | cons pr rest ih =>
    intro db acc db' sv h
    obtain ⟨cd, kf⟩ := pr
    simp only [files.saveLoop] at h
    cases hmc : files.makeCompany kf cd with
    | error e =>
      rw [hmc] at h
      dsimp only at h
      cases h
    | ok c0 =>
      rw [hmc] at h
      dsimp only at h
      by_cases hf : f db { c0 with id := db.nextId }
      · rw [if_pos hf] at h; cases h
      · rw [if_neg hf] at h
        obtain ⟨cs, hcs, hlen⟩ := ih _ _ _ _ h
        refine ⟨{ c0 with id := db.nextId } :: cs, ?_, ?_⟩
        · rw [hcs]; simp
        · rw [hlen]
          simp only [List.length_append, List.length_cons, List.length_nil]
          omega

lemma read_companies_ok (delim : Char) (hd : String) (rest : List String)
    (hrows : ∀ r ∈ rest, (csvLine delim r).length ≤ (csvLine delim hd).length) :
    AsyncCSVReader.read_companies delim (hd :: rest) =
      Except.ok (AsyncCSVReader.numberRows (csvLine delim hd) 1
        ((rest.map (csvLine delim)).filter (fun r => !r.isEmpty))) := by
  have hany :
      ((rest.map (csvLine delim)).filter (fun r => !r.isEmpty)).any
        (fun r => (csvLine delim hd).length < r.length) = false := by
    rw [List.any_eq_false]
    intro r hr
    have hr' : r ∈ rest.map (csvLine delim) := List.mem_of_mem_filter hr
    obtain ⟨s, hs, rfl⟩ := List.mem_map.mp hr'
    simp only [decide_eq_true_eq]
    exact Nat.not_lt.mpr (hrows s hs)
  simp only [AsyncCSVReader.read_companies, hany, Bool.false_eq_true, if_false]

lemma ugroupGo_chars : ∀ (n : Nat) (cs : List Char), cs.length ≤ n →
    ∀ (val cnt : Nat) (v : Nat × Nat), ugroupGo val cnt cs = Option.some v →
      ∀ c ∈ cs, c.isDigit = true ∨ c = '_' := by
  intro n
  induction n with
  | zero =>
    intro cs hlen val cnt v h c hc
    cases cs with
    | nil => simp at hc
    | cons a t => simp at hlen
  | succ n ih =>
    intro cs hlen val cnt v h c hc
    cases cs with
    | nil => simp at hc
    | cons a t =>
      rw [ugroupGo.eq_def] at h
      simp only [] at h
      by_cases had : a.isDigit
      · rw [if_pos had] at h
        rcases List.mem_cons.mp hc with rfl | hc2
        · left; exact had
        · exact ih t (by simp at hlen; omega) _ _ _ h c hc2
      · rw [if_neg had] at h
        by_cases ha : a = '_'
        · rw [if_pos ha] at h
          cases t with
          | nil => cases h
          | cons b t2 =>
            dsimp only at h
            by_cases hb : b.isDigit
            · rw [if_pos hb] at h
              rcases List.mem_cons.mp hc with rfl | hc2
              · right; exact ha
              · rcases List.mem_cons.mp hc2 with rfl | hc3
                · left; exact hb
                · exact ih t2 (by simp at hlen; omega) _ _ _ h c hc3
            · rw [if_neg hb] at h; cases h
        · rw [if_neg ha] at h; cases h

lemma ugroup?_chars (cs : List Char) (v : Nat × Nat) (h : ugroup? cs = Option.some v) :
    ∀ c ∈ cs, c.isDigit = true ∨ c = '_' := by
  cases cs with
  | nil => intro c hc; simp at hc
  | cons a t =>
    simp only [ugroup?] at h
    by_cases ha : a.isDigit
    · rw [if_pos ha] at h
      intro c hc
      rcases List.mem_cons.mp hc with rfl | hc2
      · left; exact ha
      · exact ugroupGo_chars t.length t (Nat.le_refl _) _ _ _ h c hc2
    · rw [if_neg ha] at h; cases h

lemma mem_pyStrip_or (cs : List Char) (c : Char) (hc : c ∈ cs) :
    c ∈ pyStrip cs ∨ c.isWhitespace = true := by
  by_cases hw : c.isWhitespace
  · right; exact hw
  · left
    unfold pyStrip
    have h1 : c ∈ cs.dropWhile Char.isWhitespace := by
      rcases List.mem_append.mp
          ((List.takeWhile_append_dropWhile (p := Char.isWhitespace) (l := cs)) ▸ hc) with h | h
      · exact absurd (List.mem_takeWhile_imp h) hw
      · exact h
    have h2 : c ∈ (cs.dropWhile Char.isWhitespace).reverse := List.mem_reverse.mpr h1
    rw [List.mem_reverse]
    rcases List.mem_append.mp
        ((List.takeWhile_append_dropWhile (p := Char.isWhitespace)
          (l := (cs.dropWhile Char.isWhitespace).reverse)) ▸ h2) with h | h
    · exact absurd (List.mem_takeWhile_imp h) hw
    · exact h

lemma pyIntParseL_no_dot (cs : List Char) (n : Int) (h : pyIntParseL cs = Option.some n) :
    '.' ∉ cs := by
  intro hdot
  have hmem : ('.' : Char) ∈ pyStrip cs ∨ ('.' : Char).isWhitespace = true :=
    mem_pyStrip_or cs '.' hdot
  have hnws : ('.' : Char).isWhitespace = false := by decide
  rw [hnws] at hmem
  simp only [Bool.false_eq_true, or_false] at hmem
  unfold pyIntParseL at h
  cases hs : pyStrip cs with
  | nil => rw [hs] at h; cases h
  | cons a t =>
    rw [hs] at h hmem
    dsimp only at h
    have hchars : ∀ c ∈ (a :: t : List Char), c.isDigit = true ∨ c = '_' ∨ c = '+' ∨ c = '-' := by
      intro c hcmem
      by_cases hap : a = '+'
      · rw [if_pos hap] at h
        rcases List.mem_cons.mp hcmem with rfl | hct
        · right; right; left; exact hap
        · rcases Option.map_eq_some'.mp h with ⟨w, hw, _⟩
          rcases ugroup?_chars t w hw c hct with hh | hh
          · left; exact hh
          · right; left; exact hh
      · rw [if_neg hap] at h
        by_cases ham : a = '-'
        · rw [if_pos ham] at h
          rcases List.mem_cons.mp hcmem with rfl | hct
          · right; right; right; exact ham
          · rcases Option.map_eq_some'.mp h with ⟨w, hw, _⟩
            rcases ugroup?_chars t w hw c hct with hh | hh
            · left; exact hh
            · right; left; exact hh
        · rw [if_neg ham] at h
          rcases Option.map_eq_some'.mp h with ⟨w, hw, _⟩
          rcases ugroup?_chars (a :: t) w hw c hcmem with hh | hh
          · left; exact hh
          · right; left; exact hh
    rcases hchars '.' hmem with hh | hh | hh | hh
    · exact absurd hh (by decide)
    · exact absurd hh (by decide)
    · exact absurd hh (by decide)
    · exact absurd hh (by decide)

/-- Claim C2: for every create request of a consolidated record whose
(tax identifier, year) pair already exists in the store, the create
operation fails with a conflict error and the store is left unchanged;
for every pair not yet present, the record is created. -/
theorem create_data_conflict_or_create (store : List ConsolidatedData) (d : ConsolidatedData) :
    ((∃ r ∈ store, r.inn = d.inn ∧ r.year = d.year) →
      data_router.create_data store d =
        (store, Except.error "409 Data for this INN and year already exists")) ∧
    ((∀ r ∈ store, ¬(r.inn = d.inn ∧ r.year = d.year)) →
      data_router.create_data store d = (store ++ [d], Except.ok d)) := by
  constructor
  · intro hex
    have hsome : (store.find? (fun r => r.inn == d.inn && r.year == d.year)).isSome := by
      rw [List.find?_isSome]
      obtain ⟨r, hr, h1, h2⟩ := hex
      exact ⟨r, hr, by simp [h1, h2]⟩
    obtain ⟨r, hr⟩ := Option.isSome_iff_exists.mp hsome
    unfold data_router.create_data CompanyRepository.get_by_inn_and_year
    rw [hr]
  · intro hall
    have hnone : store.find? (fun r => r.inn == d.inn && r.year == d.year) = Option.none := by
      rw [List.find?_eq_none]
      intro r hr
      simp only [Bool.and_eq_true, beq_iff_eq, not_and]
      intro h1 h2
      exact hall r hr ⟨h1, h2⟩
    unfold data_router.create_data CompanyRepository.get_by_inn_and_year CompanyRepository.create
    rw [hnone]

/-- Witness for C2 at a concrete store: the duplicate (inn, year) pair is
rejected with the store unchanged, and a fresh pair is created. -/
theorem create_data_conflict_or_create_witness :
    data_router.create_data [c2rec] c2dup =
      ([c2rec], Except.error "409 Data for this INN and year already exists") ∧
    data_router.create_data [] c2dup = ([c2dup], Except.ok c2dup) := by
  constructor
  · exact (create_data_conflict_or_create [c2rec] c2dup).1
      ⟨c2rec, List.mem_singleton.mpr rfl, rfl, rfl⟩
  · exact (create_data_conflict_or_create [] c2dup).2 (by intro r hr; simp at hr)

/-- Claim C4: the consolidated-record partial update writes exactly the
fields explicitly present in the partial input and leaves every absent
field unchanged; in particular a record with revenue 100 and net profit 10
patched with net profit 20 keeps revenue 100. -/
theorem repository_partial_update (db_obj : List (String × Value))
    (upd : List (String × Value)) (k : String) :
    ((∀ v, (k, v) ∉ upd) →
      dictGet? (CompanyRepository.update db_obj upd) k = dictGet? db_obj k) ∧
    ((upd.map Prod.fst).Nodup → ∀ v, (k, v) ∈ upd →
      dictGet? (CompanyRepository.update db_obj upd) k = Option.some v) ∧
    CompanyRepository.update
        [("revenue_thous_rub", Value.int 100), ("net_profit_thous_rub", Value.int 10)]
        [("net_profit_thous_rub", Value.int 20)] =
      [("revenue_thous_rub", Value.int 100), ("net_profit_thous_rub", Value.int 20)] := by
  refine ⟨?_, ?_, ?_⟩
  · intro h
    exact foldl_dictSet_frame upd db_obj k (fun v => h v)
  · intro hnd v hv
    exact foldl_dictSet_mem upd db_obj k v hnd hv
  · decide

/-- Witness for C4 at a concrete record and patch: the field absent from
the patch keeps its stored value and the present field is written. -/
theorem repository_partial_update_witness :
    dictGet?
        (CompanyRepository.update [("revenue_thous_rub", Value.int 100)]
          [("net_profit_thous_rub", Value.int 20)]) "revenue_thous_rub" =
      dictGet? [("revenue_thous_rub", Value.int 100)] "revenue_thous_rub" ∧
    dictGet?
        (CompanyRepository.update [("revenue_thous_rub", Value.int 100)]
          [("net_profit_thous_rub", Value.int 20)]) "net_profit_thous_rub" =
      Option.some (Value.int 20) := by
  constructor
  · exact (repository_partial_update [("revenue_thous_rub", Value.int 100)]
      [("net_profit_thous_rub", Value.int 20)] "revenue_thous_rub").1
      (by intro v hv; simp at hv)
  · exact (repository_partial_update [("revenue_thous_rub", Value.int 100)]
      [("net_profit_thous_rub", Value.int 20)] "net_profit_thous_rub").2.1
      (by decide) (Value.int 20) (List.mem_singleton.mpr rfl)

/-- Claim C5 counterexample: the cell "a,b" stays text but its textual
value is not preserved — the stored text is the comma-rewritten form; and
the cell "1e5" parses fully as a decimal (`float("1e5")` succeeds) yet
remains text, because the float coercion is attempted only for cells
containing a decimal point. -/
theorem clean_value_not_preserving_counterexample :
    (AsyncCSVReader.clean_value (Option.some "a,b") = Value.str "a.b" ∧
      AsyncCSVReader.clean_value (Option.some "a,b") ≠ Value.str "a,b") ∧
    ((pyFloatParse "1e5").isSome = true ∧
      AsyncCSVReader.clean_value (Option.some "1e5") = Value.str "1e5") := by
  refine ⟨⟨?_, ?_⟩, ?_, ?_⟩
  · decide
  · decide
  · decide
  · decide

/-- Claim C5 (amended): empty or whitespace-only cells become null; after
comma-to-point rewriting and stripping, a cell that parses fully as an
integer becomes an integer, one that contains a point and parses as a
decimal becomes a floating value, and any other cell — a point-free cell
the int coercion rejects, or a pointed cell the float coercion rejects —
remains text holding the normalized (comma-rewritten, stripped) form of
the original cell. -/
theorem clean_value_cases (s : String) :
    (pyStrip s.toList = [] → AsyncCSVReader.clean_value (Option.some s) = Value.none) ∧
    (pyStrip s.toList ≠ [] →
      (∀ n : Int, pyIntParseL (pyStrip (replaceCommaDot s.toList)) = Option.some n →
        AsyncCSVReader.clean_value (Option.some s) = Value.int n) ∧
      (∀ q : Rat, '.' ∈ pyStrip (replaceCommaDot s.toList) →
        pyFloatParseL (pyStrip (replaceCommaDot s.toList)) = Option.some q →
        AsyncCSVReader.clean_value (Option.some s) = Value.float q) ∧
      ('.' ∉ pyStrip (replaceCommaDot s.toList) →
        pyIntParseL (pyStrip (replaceCommaDot s.toList)) = Option.none →
        AsyncCSVReader.clean_value (Option.some s) =
          Value.str (String.mk (pyStrip (replaceCommaDot s.toList)))) ∧
      ('.' ∈ pyStrip (replaceCommaDot s.toList) →
        pyFloatParseL (pyStrip (replaceCommaDot s.toList)) = Option.none →
        AsyncCSVReader.clean_value (Option.some s) =
          Value.str (String.mk (pyStrip (replaceCommaDot s.toList))))) := by
  constructor
  · intro h
    unfold AsyncCSVReader.clean_value
    dsimp only
    rw [if_pos]
    rw [h]
    simp
  · intro hne
    have hcs : s.toList.isEmpty = false := by
      cases hl : s.toList with
      | nil => exact absurd (by rw [hl]; rfl) hne
      | cons a t => rfl
    have hguard : (s.toList.isEmpty || (pyStrip s.toList).isEmpty) = false := by
      rw [hcs]
      cases hp : pyStrip s.toList with
      | nil => exact absurd hp hne
      | cons a t => rfl
    refine ⟨?_, ?_, ?_, ?_⟩
    · intro n hparse
      have hdot : '.' ∉ pyStrip (replaceCommaDot s.toList) :=
        pyIntParseL_no_dot _ n hparse
      unfold AsyncCSVReader.clean_value
      dsimp only
      rw [if_neg (by rw [hguard]; exact Bool.false_ne_true), if_neg hdot, hparse]
    · intro q hdot hparse
      unfold AsyncCSVReader.clean_value
      dsimp only
      rw [if_neg (by rw [hguard]; exact Bool.false_ne_true), if_pos hdot, hparse]
    · intro hdot hint
      unfold AsyncCSVReader.clean_value
      dsimp only
      rw [if_neg (by rw [hguard]; exact Bool.false_ne_true), if_neg hdot, hint]
    · intro hdot hfloat
      unfold AsyncCSVReader.clean_value
      dsimp only
      rw [if_neg (by rw [hguard]; exact Bool.false_ne_true), if_pos hdot, hfloat]

/-- Witness for the amended C5 at concrete cells: a whitespace-only cell
becomes null, a numeric cell with surrounding spaces becomes an int, and
both text cases fire — a point-free cell the int coercion rejects and a
pointed cell the float coercion rejects. -/
theorem clean_value_cases_witness :
    AsyncCSVReader.clean_value (Option.some "  ") = Value.none ∧
    AsyncCSVReader.clean_value (Option.some " 42 ") = Value.int 42 ∧
    AsyncCSVReader.clean_value (Option.some "1e5") =
      Value.str (String.mk (pyStrip (replaceCommaDot "1e5".toList))) ∧
    AsyncCSVReader.clean_value (Option.some "a.b") =
      Value.str (String.mk (pyStrip (replaceCommaDot "a.b".toList))) := by
  refine ⟨?_, ?_, ?_, ?_⟩
  · exact (clean_value_cases "  ").1 (by decide)
  · exact ((clean_value_cases " 42 ").2 (by decide)).1 42 (by decide)
  · exact ((clean_value_cases "1e5").2 (by decide)).2.2.1 (by decide) (by decide)
  · exact ((clean_value_cases "a.b").2 (by decide)).2.2.2 (by decide) (by decide)

/-- Claim C6: for every ingested row, the persisted support-measures flag is
true if and only if the row's support-measures cell is exactly the sentinel
string "Получены"; any other value, including an empty or missing cell
(null), yields false. -/
theorem support_measures_sentinel (row cd : RawRecord) (c : Company)
    (h : files.makeCompany (AsyncCSVReader.extract_key_fields row) cd = Except.ok c) :
    (c.support_measures = true ↔
      rowGet row "Данные о мерах поддержки" = Value.str "Получены") := by
  unfold files.makeCompany at h
  cases hio : (if pyTruthy (AsyncCSVReader.extract_key_fields row).inn
      then intOfValue (AsyncCSVReader.extract_key_fields row).inn
      else Option.some 0) with
  | none => rw [hio] at h; cases h
  | some inn =>
    rw [hio] at h
    dsimp only at h
    injection h with h1
    rw [← h1]
    show (pyEqStr (AsyncCSVReader.extract_key_fields row).support_measures "Получены" = true ↔ _)
    have hfield : (AsyncCSVReader.extract_key_fields row).support_measures =
        rowGet row "Данные о мерах поддержки" := rfl
    rw [hfield]
    cases hv : rowGet row "Данные о мерах поддержки" with
    | none => simp [pyEqStr]
    | int n => simp [pyEqStr]
    | float q => simp [pyEqStr]
    | str t => simp [pyEqStr]
    | bool b => simp [pyEqStr]

/-- Witness for C6: a row whose support-measures cell is the sentinel
produces a company whose flag is true. -/
theorem support_measures_sentinel_witness :
    (c6comp.support_measures = true ↔
      rowGet c6row "Данные о мерах поддержки" = Value.str "Получены") :=
  support_measures_sentinel c6row c6row c6comp (by decide)

/-- Claim C3 counterexample: a two-column payload with one data row yields a
record whose key list carries the extra bookkeeping key "number" absent from
the header, so the key set is not exactly the header's field-name set. -/
theorem read_companies_number_key_counterexample :
    AsyncCSVReader.read_companies ',' ["a,b", "1,2"] =
      Except.ok [[("a", Value.int 1), ("b", Value.int 2), ("number", Value.int 1)]] ∧
    "number" ∈ ([("a", Value.int 1), ("b", Value.int 2),
        ("number", Value.int 1)].map Prod.fst) ∧
    "number" ∉ csvLine ',' "a,b" := by
  refine ⟨by decide, by decide, by decide⟩

/-- Claim C3 (amended): for every valid delimited payload whose header has
pairwise distinct field names not containing "number", parsing yields
exactly one record per data row, in input order; record i is the header
fields zipped with the cleaned cells of row i, followed by one extra entry
("number", i + 1), so each record's key list is the header's field names
plus the trailing "number" key. -/
theorem read_companies_records (delim : Char) (hd : String) (rows : List String)
    (hnd : (csvLine delim hd).Nodup) (hnum : "number" ∉ csvLine delim hd)
    (hrows : ∀ r ∈ rows, r ≠ "" ∧ (csvLine delim r).length = (csvLine delim hd).length) :
    ∃ recs, AsyncCSVReader.read_companies delim (hd :: rows) = Except.ok recs ∧
      recs.length = rows.length ∧
      (∀ rec ∈ recs, rec.map Prod.fst = csvLine delim hd ++ ["number"]) ∧
      (∀ i r, rows.get? i = Option.some r →
        recs.get? i = Option.some
          ((csvLine delim hd).zip ((csvLine delim r).map
              (fun cell => AsyncCSVReader.clean_value (Option.some cell))) ++
            [("number", Value.int (1 + i))])) := by
  have hle : ∀ r ∈ rows, (csvLine delim r).length ≤ (csvLine delim hd).length := by
    intro r hr
    exact Nat.le_of_eq (hrows r hr).2
  have hfilter : ((rows.map (csvLine delim)).filter (fun r => !r.isEmpty)) =
      rows.map (csvLine delim) := by
    apply List.filter_eq_self.mpr
    intro r hr
    obtain ⟨s, hs, rfl⟩ := List.mem_map.mp hr
    have := csvLine_ne_nil delim s (hrows s hs).1
    simp only [Bool.not_eq_true']
    cases hcs : csvLine delim s with
    | nil => exact absurd hcs this
    | cons a t => rfl
  have hread := read_companies_ok delim hd rows hle
  rw [hfilter] at hread
  have hget : ∀ i r, rows.get? i = Option.some r →
      (AsyncCSVReader.numberRows (csvLine delim hd) 1 (rows.map (csvLine delim))).get? i =
        Option.some
          ((csvLine delim hd).zip ((csvLine delim r).map
              (fun cell => AsyncCSVReader.clean_value (Option.some cell))) ++
            [("number", Value.int (1 + i))]) := by
    intro i r hr
    have hmapget : (rows.map (csvLine delim)).get? i = Option.some (csvLine delim r) := by
      rw [List.get?_map, hr]
      rfl
    rw [numberRows_get? (csvLine delim hd) 1 (rows.map (csvLine delim)) i
      (csvLine delim r) hmapget]
    have hmem : r ∈ rows := by
      have := List.get?_mem hr
      exact this
    rw [cleanRow_shape (csvLine delim hd) (csvLine delim r) (1 + i) hnd hnum]
    rw [(hrows r hmem).2, List.drop_length]
    simp
  refine ⟨AsyncCSVReader.numberRows (csvLine delim hd) 1 (rows.map (csvLine delim)),
    hread, ?_, ?_, hget⟩
  · rw [numberRows_length, List.length_map]
  · intro rec hrec
    obtain ⟨i, hi⟩ := List.mem_iff_get?.mp hrec
    have hlt : i < rows.length := by
      obtain ⟨hlt, -⟩ := List.get?_eq_some.mp hi
      rwa [numberRows_length, List.length_map] at hlt
    have hrowsome : rows.get? i = Option.some (rows.get ⟨i, hlt⟩) :=
      List.get?_eq_some.mpr ⟨hlt, rfl⟩
    have hrc := hget i (rows.get ⟨i, hlt⟩) hrowsome
    rw [hrc] at hi
    injection hi with hi
    rw [← hi, List.map_append, map_fst_zip_take, List.length_map,
      (hrows _ (List.get_mem rows i hlt)).2, List.take_length]
    rfl

/-- Witness for the amended C3 at a concrete two-row payload. -/
theorem read_companies_records_witness :
    ∃ recs, AsyncCSVReader.read_companies ',' ["a,b", "1,2", "3,4"] = Except.ok recs ∧
      recs.length = (["1,2", "3,4"] : List String).length ∧
      (∀ rec ∈ recs, rec.map Prod.fst = csvLine ',' "a,b" ++ ["number"]) ∧
      (∀ i r, (["1,2", "3,4"] : List String).get? i = Option.some r →
        recs.get? i = Option.some
          ((csvLine ',' "a,b").zip ((csvLine ',' r).map
              (fun cell => AsyncCSVReader.clean_value (Option.some cell))) ++
            [("number", Value.int (1 + i))])) :=
  read_companies_records ',' "a,b" ["1,2", "3,4"] (by decide) (by decide) (by decide)

/-- Claim C8: a payload whose first data row has fewer columns than the
header does not make the parser fail: the first record's key list is still
the full header (plus the "number" key) and every trailing header field
with no corresponding cell is mapped to null. (The remaining rows are
assumed not to exceed the header width; wider rows crash the reader, a
behavior outside this claim.) -/
theorem read_companies_short_first_row (delim : Char) (hd r : String) (rest : List String)
    (hnd : (csvLine delim hd).Nodup) (hnum : "number" ∉ csvLine delim hd)
    (hr : r ≠ "") (hshort : (csvLine delim r).length < (csvLine delim hd).length)
    (hrest : ∀ s ∈ rest, (csvLine delim s).length ≤ (csvLine delim hd).length) :
    ∃ recs rec0, AsyncCSVReader.read_companies delim (hd :: r :: rest) = Except.ok recs ∧
      recs.get? 0 = Option.some rec0 ∧
      rec0.map Prod.fst = csvLine delim hd ++ ["number"] ∧
      ∀ j (hj : j < (csvLine delim hd).length), (csvLine delim r).length ≤ j →
        dictGet? rec0 ((csvLine delim hd).get ⟨j, hj⟩) = Option.some Value.none := by
  have hle : ∀ s ∈ (r :: rest), (csvLine delim s).length ≤ (csvLine delim hd).length := by
    intro s hs
    rcases List.mem_cons.mp hs with rfl | hs
    · exact Nat.le_of_lt hshort
    · exact hrest s hs
  have hread := read_companies_ok delim hd (r :: rest) hle
  have hheadrow : ((r :: rest).map (csvLine delim)).filter (fun x => !x.isEmpty) =
      csvLine delim r :: ((rest.map (csvLine delim)).filter (fun x => !x.isEmpty)) := by
    simp only [List.map_cons]
    rw [List.filter_cons_of_pos]
    cases hcs : csvLine delim r with
    | nil => exact absurd hcs (csvLine_ne_nil delim r hr)
    | cons a t => rfl
  rw [hheadrow] at hread
  set fns := csvLine delim hd with hfns
  set cells := csvLine delim r with hcells
  have hshape := cleanRow_shape fns cells 1 hnd hnum
  refine ⟨_, AsyncCSVReader.cleanRow fns cells 1, hread, rfl, ?_, ?_⟩
  · rw [hshape, List.map_append, List.map_append, map_fst_zip_take, List.length_map,
      map_fst_pairs, List.take_append_drop]
    rfl
  · intro j hj hge
    rw [hshape]
    have hA_none : dictGet?
        (fns.zip (cells.map (fun c => AsyncCSVReader.clean_value (Option.some c))))
        (fns.get ⟨j, hj⟩) = Option.none := by
      apply dictGet?_eq_none_of_not_mem_keys
      rw [map_fst_zip_take, List.length_map]
      intro hmem
      obtain ⟨i, hilt, hieq⟩ := List.mem_take_iff_getElem.mp hmem
      have hiltl : i < fns.length := (lt_min_iff.mp hilt).2
      have hgeq : fns.get ⟨i, hiltl⟩ = fns.get ⟨j, hj⟩ := by
        rw [List.get_eq_getElem, List.get_eq_getElem]
        exact hieq
      have hij : (⟨i, hiltl⟩ : Fin fns.length) = ⟨j, hj⟩ :=
        (List.Nodup.get_inj_iff hnd).mp hgeq
      have hival : i = j := congrArg Fin.val hij
      have hicells : i < cells.length := (lt_min_iff.mp hilt).1
      omega
    rw [List.append_assoc, dictGet?_append_right _ _ hA_none]
    apply dictGet?_append_left
    apply dictGet?_const
    · intro p hp
      obtain ⟨f, hf, rfl⟩ := List.mem_map.mp hp
      rfl
    · rw [map_fst_pairs]
      have hlt2 : j - cells.length < (fns.drop cells.length).length := by
        rw [List.length_drop]
        omega
      have heq2 : (fns.drop cells.length).get ⟨j - cells.length, hlt2⟩ = fns.get ⟨j, hj⟩ := by
        rw [List.get_eq_getElem, List.get_eq_getElem, List.getElem_drop]
        congr 1
        show cells.length + (j - cells.length) = j
        omega
      rw [← heq2]
      exact List.get_mem _ _ _

/-- Witness for C8: a three-column header with a one-cell first data row
parses successfully with the two trailing fields null. -/
theorem read_companies_short_first_row_witness :
    ∃ recs rec0, AsyncCSVReader.read_companies ',' ["a,b,c", "1"] = Except.ok recs ∧
      recs.get? 0 = Option.some rec0 ∧
      rec0.map Prod.fst = csvLine ',' "a,b,c" ++ ["number"] ∧
      ∀ j (hj : j < (csvLine ',' "a,b,c").length), (csvLine ',' "1").length ≤ j →
        dictGet? rec0 ((csvLine ',' "a,b,c").get ⟨j, hj⟩) = Option.some Value.none :=
  read_companies_short_first_row ',' "a,b,c" "1" [] (by decide) (by decide) (by decide)
    (by decide) (by intro s hs; simp at hs)

/-- Claim C7 counterexample: a semicolon-delimited payload uploaded through
the ingestion route is parsed with the comma delimiter only — the persisted
record has a single payload column keyed by the whole header line, not the
actual two columns. -/
theorem upload_semicolon_one_column_counterexample :
    (files.upload_csv_file (fun _ _ => false) 1 emptyDB ["a;b", "1;2"]).2.isOk = true ∧
    ((files.upload_csv_file (fun _ _ => false) 1 emptyDB ["a;b", "1;2"]).1.companies.map
        (fun c => c.json_data.map Prod.fst)) = [["a;b", "number"]] := by
  constructor
  · decide
  · decide

/-- Claim C7 (amended): the comma-to-semicolon fallback lives only in the
optimizer's dataframe loader — when the comma read yields exactly one
column, `_ensure_dataframe` re-reads the payload once with the semicolon
delimiter. The ingestion reader always splits on the comma, so a payload
without commas parses into one-column records keyed by the whole lines. -/
theorem delimiter_fallback_in_optimizer_only (lines : List String) (df : DataFrame)
    (hdf : pd_read_csv ',' lines = Option.some df) (h1 : df.cols.length = 1) :
    Optimizer.ensure_dataframe lines =
      (pd_read_csv ';' lines).map
        (fun d => { cols := d.cols.map (fun s => String.mk (pyStrip s.toList)),
                    rows := d.rows }) ∧
    (∀ (hd : String) (rows : List String), hd ≠ "" → hd ≠ "number" →
      (',' ∉ hd.toList) → (∀ r ∈ rows, r ≠ "" ∧ (',' ∉ r.toList)) →
      ∃ recs, AsyncCSVReader.read_companies ',' (hd :: rows) = Except.ok recs ∧
        ∀ rec ∈ recs, rec.map Prod.fst = [hd, "number"]) := by
  constructor
  · unfold Optimizer.ensure_dataframe
    rw [hdf]
    dsimp only
    rw [if_pos h1]
    cases hsemi : pd_read_csv ';' lines with
    | none => rfl
    | some d => rfl
  · intro hd rows hhd hhdnum hhdc hrows
    have hone : csvLine ',' hd = [hd] := csvLine_no_delim ',' hd hhd hhdc
    have hrows2 : ∀ r ∈ rows, r ≠ "" ∧ (csvLine ',' r).length = (csvLine ',' hd).length := by
      intro r hr
      refine ⟨(hrows r hr).1, ?_⟩
      rw [hone, csvLine_no_delim ',' r (hrows r hr).1 (hrows r hr).2]
      rfl
    have hnd : (csvLine ',' hd).Nodup := by rw [hone]; simp
    have hnum : "number" ∉ csvLine ',' hd := by
      rw [hone]
      simp only [List.mem_singleton]
      exact fun hc => hhdnum hc.symm
    obtain ⟨recs, hread, _, hkeys, _⟩ := read_companies_records ',' hd rows hnd hnum hrows2
    refine ⟨recs, hread, ?_⟩
    intro rec hrec
    rw [hkeys rec hrec, hone]
    rfl

/-- Witness for the amended C7 at a concrete semicolon payload: the
optimizer loader re-reads it with the semicolon delimiter while the
ingestion reader keeps it as one-column records. -/
theorem delimiter_fallback_in_optimizer_only_witness :
    Optimizer.ensure_dataframe ["a;b", "1;2"] =
      (pd_read_csv ';' ["a;b", "1;2"]).map
        (fun d => { cols := d.cols.map (fun s => String.mk (pyStrip s.toList)),
                    rows := d.rows }) ∧
    (∀ (hd : String) (rows : List String), hd ≠ "" → hd ≠ "number" →
      (',' ∉ hd.toList) → (∀ r ∈ rows, r ≠ "" ∧ (',' ∉ r.toList)) →
      ∃ recs, AsyncCSVReader.read_companies ',' (hd :: rows) = Except.ok recs ∧
        ∀ rec ∈ recs, rec.map Prod.fst = [hd, "number"]) :=
  delimiter_fallback_in_optimizer_only ["a;b", "1;2"]
    { cols := ["a;b"], rows := [["1;2"]] } (by decide) (by decide)

/-- Claim C1 counterexample: for a two-row batch whose second row's storage
write fails, the upload returns a database error instead of a summary, the
store is rolled back to its pre-upload state, and no row (including the
non-failing first row) is visible to a subsequent list-by-owner query. -/
theorem upload_row_failure_rolls_back_counterexample :
    files.upload_csv_file c1FlushFails 7 emptyDB c1Lines =
      (emptyDB, Except.error "Database error: flush failed") ∧
    files.get_user_companies emptyDB 7 50 0 = [] := by
  constructor
  · decide
  · decide

lemma upload_cases (f : DB → Company → Bool) (uid : Nat) (db0 : DB) (lines : List String) :
    (∃ e, files.upload_csv_file f uid db0 lines = (db0, Except.error e)) ∨
    (∃ data db1 saved, AsyncCSVReader.read_companies ',' lines = Except.ok data ∧
      files.saveLoop f uid db0 []
        (data.zip (data.map AsyncCSVReader.extract_key_fields)) = Except.ok (db1, saved) ∧
      files.upload_csv_file f uid db0 lines =
        (db1, Except.ok { companies_processed := saved.length,
                          companies_saved := saved.take 5 })) := by
  cases hread : AsyncCSVReader.read_companies ',' lines with
  | error e =>
    left
    refine ⟨"CSV processing error: " ++ e, ?_⟩
    unfold files.upload_csv_file
    rw [hread]
  | ok data =>
    cases hsl : files.saveLoop f uid db0 []
        (data.zip (data.map AsyncCSVReader.extract_key_fields)) with
    | error e =>
      left
      refine ⟨e, ?_⟩
      unfold files.upload_csv_file
      rw [hread]
      dsimp only
      rw [hsl]
    | ok pr =>
      right
      refine ⟨data, pr.1, pr.2, rfl, hsl, ?_⟩
      unfold files.upload_csv_file
      rw [hread]
      dsimp only
      rw [hsl]

/-- Claim C1 (amended): the upload is batch-atomic, not row-level tolerant.
Whenever the operation does not return a summary (as on any row's storage
failure), the store is left exactly as before the upload — no row of the
batch is persisted; whenever it returns a summary, the batch's companies
are appended to the store and their number is the summary's processed
count. -/
theorem upload_batch_atomicity (f : DB → Company → Bool) (uid : Nat) (db0 : DB)
    (lines : List String) :
    ((files.upload_csv_file f uid db0 lines).2.isOk = false →
      (files.upload_csv_file f uid db0 lines).1 = db0) ∧
    (∀ s, (files.upload_csv_file f uid db0 lines).2 = Except.ok s →
      ∃ cs, (files.upload_csv_file f uid db0 lines).1.companies = db0.companies ++ cs ∧
        cs.length = s.companies_processed) := by
  rcases upload_cases f uid db0 lines with ⟨e, he⟩ | ⟨data, db1, saved, _, hsl, hup⟩
  · constructor
    · intro _
      rw [he]
    · intro s hs
      rw [he] at hs
      cases hs
  · constructor
    · intro hfalse
      rw [hup] at hfalse
      cases hfalse
    · intro s hs
      rw [hup] at hs
      simp only [Except.ok.injEq] at hs
      obtain ⟨cs, hcs, hlen⟩ := saveLoop_ok_shape f uid _ db0 [] db1 saved hsl
      refine ⟨cs, ?_, ?_⟩
      · rw [hup, hcs]
      · rw [← hs]
        show cs.length = saved.length
        simp only [List.length_nil] at hlen
        omega

/-- Witness for the amended C1: in the concrete failing batch the store is
left unchanged. -/
theorem upload_batch_atomicity_witness :
    (files.upload_csv_file c1FlushFails 7 emptyDB c1Lines).1 = emptyDB :=
  (upload_batch_atomicity c1FlushFails 7 emptyDB c1Lines).1 (by decide)

/-- Claim C9: an uploaded row whose extracted tax identifier is null or
empty is not rejected — the row loop persists a Company whose identifier is
the number 0 and creates the ownership link for the uploading user like any
other row. -/
theorem upload_null_inn_persists_zero (cd : RawRecord) (kf : KeyFields) (uid : Nat)
    (db0 : DB) (h : kf.inn = Value.none ∨ kf.inn = Value.str "") :
    ∃ c, files.makeCompany kf cd = Except.ok c ∧ c.inn = 0 ∧
      files.saveLoop (fun _ _ => false) uid db0 [] [(cd, kf)] =
        Except.ok
          ({ companies := db0.companies ++ [{ c with id := db0.nextId }]
             links := db0.links ++ [{ user_id := uid, company_id := db0.nextId }]
             nextId := db0.nextId + 1 },
           [{ id := db0.nextId, name := c.name, inn := c.inn }]) := by
  have htruthy : pyTruthy kf.inn = false := by
    rcases h with h | h <;> rw [h] <;> rfl
  have hmk : files.makeCompany kf cd = Except.ok
      { id := 0
        inn := 0
        name := pyOr kf.name (Value.str "")
        full_name := pyOr kf.full_name (Value.str "")
        spark_status := pyOr kf.spark_status (Value.str "")
        main_industry := pyOr kf.main_industry (Value.str "")
        company_size_final := pyOr kf.company_size_final (Value.str "")
        organization_type := kf.organization_type
        support_measures := pyEqStr kf.support_measures "Получены"
        special_status := kf.special_status
        json_data := cd } := by
    unfold files.makeCompany
    rw [htruthy]
    rfl
  refine ⟨_, hmk, rfl, ?_⟩
  unfold files.saveLoop
  rw [hmk]
  dsimp only
  rfl

/-- Witness for C9: a row with every source column missing is persisted
with identifier 0 and linked to user 3. -/
theorem upload_null_inn_persists_zero_witness :
    ∃ c, files.makeCompany c9kf [] = Except.ok c ∧ c.inn = 0 ∧
      files.saveLoop (fun _ _ => false) 3 emptyDB [] [([], c9kf)] =
        Except.ok
          ({ companies := emptyDB.companies ++ [{ c with id := emptyDB.nextId }]
             links := emptyDB.links ++ [{ user_id := 3, company_id := emptyDB.nextId }]
             nextId := emptyDB.nextId + 1 },
           [{ id := emptyDB.nextId, name := c.name, inn := c.inn }]) :=
  upload_null_inn_persists_zero [] c9kf 3 emptyDB (Or.inl rfl)

/-- Claim C10: in both Company partial-update routes, a field explicitly
present in the request body with value null is skipped — its stored value
is left unchanged, no attribute can be cleared to null through these
routes, and every attribute other than the `updated_at` stamp that the
request does not update keeps its prior value. -/
theorem company_update_null_skip (company : List (String × Value))
    (req : CompanyUpdateRequest) (m : CompanyKeyMetricsUpdate) (now : Int) (k : String)
    (hk : k ≠ "updated_at") :
    ((∀ v, (k, v) ∈ req.model_dump → v = Value.none) →
      dictGet? (companies.update_company company req now) k = dictGet? company k) ∧
    (dictGet? company k ≠ Option.some Value.none →
      dictGet? (companies.update_company company req now) k ≠ Option.some Value.none) ∧
    ((∀ v, (k, v) ∈ m.model_dump → v = Value.none) →
      dictGet? (companies.update_company_key_metrics company m now) k = dictGet? company k) ∧
    (dictGet? company k ≠ Option.some Value.none →
      dictGet? (companies.update_company_key_metrics company m now) k ≠
        Option.some Value.none) := by
  refine ⟨?_, ?_, ?_, ?_⟩
  · intro hnull
    unfold companies.update_company
    dsimp only
    rw [dictGet?_dictSet_ne _ _ (Ne.symm hk)]
    exact patch_foldl_frame req.model_dump company k hnull
  · intro hnot
    unfold companies.update_company
    dsimp only
    rw [dictGet?_dictSet_ne _ _ (Ne.symm hk)]
    exact patch_foldl_no_null req.model_dump company k hnot
  · intro hnull
    unfold companies.update_company_key_metrics
    dsimp only
    rw [dictGet?_dictSet_ne _ _ (Ne.symm hk)]
    exact patch_foldl_frame m.model_dump company k hnull
  · intro hnot
    unfold companies.update_company_key_metrics
    dsimp only
    rw [dictGet?_dictSet_ne _ _ (Ne.symm hk)]
    exact patch_foldl_no_null m.model_dump company k hnot

/-- Witness for C10: requests whose only present fields are explicit nulls
leave the stored name and flag unchanged and non-null. -/
theorem company_update_null_skip_witness :
    dictGet? (companies.update_company c10company c10req 5) "name" =
      dictGet? c10company "name" ∧
    dictGet? (companies.update_company c10company c10req 5) "name" ≠
      Option.some Value.none ∧
    dictGet? (companies.update_company_key_metrics c10company c10km 5) "support_measures" =
      dictGet? c10company "support_measures" := by
  have h := company_update_null_skip c10company c10req c10km 5 "name" (by decide)
  have h2 := company_update_null_skip c10company c10req c10km 5 "support_measures" (by decide)
  refine ⟨?_, ?_, ?_⟩
  · exact h.1 (by
      intro v hv
      have heq : ("name", v) = ("name", Value.none) := by
        simpa [c10req, CompanyUpdateRequest.model_dump, dumpField] using hv
      exact (Prod.ext_iff.mp heq).2)
  · exact h.2.1 (by decide)
  · exact h2.2.2.1 (by
      intro v hv
      have heq : ("support_measures", v) = ("support_measures", Value.none) := by
        simpa [c10km, CompanyKeyMetricsUpdate.model_dump, dumpField] using hv
      exact (Prod.ext_iff.mp heq).2)
